import Mathlib

/-
Verification of the gitlab issue-creation CLI (Go, package main).

The program is embedded shallowly: every external effect (filesystem,
environment variables, git config, the GitLab REST API, the fuzzy-finder
UI, the spawned editor process) is represented by an explicit environment
record carrying the outcome that effect produces during one run, and each
Go function becomes a pure Lean function of that environment.  Byte
strings are `List Nat` (one entry per byte, newline = 10).

The repository contains two revisions of the same command: `main.go`
(draft file removed by a deferred `os.Remove` on every exit path, no
label/milestone step) and the later unnamed file (draft file removed only
after a successful issue-creation call, with the label/milestone step).
Both variants of `createIssueFromTemplate` are embedded below.
-/

namespace GitlabIssue

/-- Byte strings of the Go program (`[]byte` / `string`): one `Nat` per byte. -/
abbrev Bytes := List Nat

/-- Go `strings.HasSuffix(s, suf)`, computed over the character list of the
string (equivalent to Go's byte-level check for the ASCII suffixes the program
uses, since trailing bytes of a multi-byte UTF-8 character never match ASCII). -/
def hasSuffix (s suf : String) : Bool :=
  decide (s.data.reverse.take suf.data.length = suf.data.reverse)

/-- Go `strings.TrimSuffix(s, suf)`: drop `suf` from the end of `s` when present. -/
def trimSuffix (s suf : String) : String :=
  if hasSuffix s suf then String.mk (s.data.take (s.data.length - suf.data.length)) else s

/-- Go struct `issueTemplate {Name string; Content []byte}`. -/
structure issueTemplate where
  Name : String
  Content : Bytes
deriving Repr, DecidableEq

/-- Go struct `issueLabel {ID int; Name string; Description string}`. -/
structure issueLabel where
  ID : Int
  Name : String
  Description : String
deriving Repr, DecidableEq

/-- Package-level sentinel `var noLabels = []issueLabel{{ID: 0, Name: "non-existant"}}`. -/
def noLabels : List issueLabel := [{ ID := 0, Name := "non-existant", Description := "" }]

/-- Go struct `issueMilestone {ID int; Name string}`. -/
structure issueMilestone where
  ID : Int
  Name : String
deriving Repr, DecidableEq

/-- Package-level sentinel `var noMilestone = issueMilestone{ID: 0, Name: "non-existant"}`. -/
def noMilestone : issueMilestone := { ID := 0, Name := "non-existant" }

/-- The fields of a created GitLab issue the program uses. -/
structure Issue where
  IID : Nat
  WebURL : String
deriving Repr, DecidableEq

/-- The zero value `&gitlab.Issue{}` assigned to the named return at entry. -/
def emptyIssue : Issue := { IID := 0, WebURL := "" }

/-- Outcomes of the external lookups consulted by `getEditor`: the values of the
environment variables GIT_EDITOR, VISUAL and EDITOR (`""` = unset, exactly as
`os.Getenv` reports), and the git global config: `none` means `ConfigScoped`
itself failed, `some c` means it succeeded and `c` is the `core.editor` option
when the `core` section has one. -/
structure EditorEnv where
  gitEditor : String
  configResult : Option (Option String)
  visual : String
  editorVar : String
deriving Repr, DecidableEq

/-- Embedding of `getEditor` (unnamed file lines 169-192 / main.go lines 165-188):
GIT_EDITOR when non-empty, else the global `core.editor` config option when
present (a config read error aborts), else VISUAL, else EDITOR, else "vi". -/
def getEditor (env : EditorEnv) : Except Unit String :=
  if env.gitEditor ≠ "" then Except.ok env.gitEditor
  else
    match env.configResult with
    | none => Except.error ()
    | some coreEditor =>
      match coreEditor with
      | some e => Except.ok e
      | none =>
        if env.visual ≠ "" then Except.ok env.visual
        else if env.editorVar ≠ "" then Except.ok env.editorVar
        else Except.ok "vi"

/-- Embedding of `strings.SplitN(s, "\n", 2)` on byte strings: `acc` holds the
bytes before the first newline, reversed. -/
def splitN2Go (acc : Bytes) : Bytes → List Bytes
  | [] => [acc.reverse]
  | c :: rest => if c = 10 then [acc.reverse, rest] else splitN2Go (c :: acc) rest

/-- Go `strings.SplitN(string(content), "\n", 2)`: at most one split, on the
first newline byte. -/
def splitN2 (s : Bytes) : List Bytes := splitN2Go [] s

/-- Error identities of `createIssueFromTemplate`, one per `return` carrying a
non-nil error (the contextual `fmt.Errorf` message is abstracted to a tag). -/
inductive CITErr where
  | tempFile
  | prepopulate
  | syncFailed
  | getEditorFailed
  | runEditorFailed
  | readFailed
  | contentUnchanged
  | emptyContent
  | emptyTitle
  | createFailed
  | removeFailed
deriving Repr, DecidableEq

/-- Outcomes of the external effects inside one run of
`createIssueFromTemplate`: temp-file creation, the write and sync of the
pre-populated buffer, the editor lookups, the editor process exit status, the
read-back of the file after editing (`none` = read error), the issue-creation
API call (`none` = API failure), and `os.Remove` on the draft file. -/
structure CITEnv where
  tempFileOk : Bool
  writeOk : Bool
  syncOk : Bool
  editorEnv : EditorEnv
  runOk : Bool
  readResult : Option Bytes
  createResult : Option Issue
  removeOk : Bool

/-- Observable result of one run of `createIssueFromTemplate`: the Go return
pair `(issue, err)`, whether the temp file was created, whether it is still on
disk when the function returns, and the `(title, description)` handed to the
issue-creation API call when that call was made. -/
structure CITResult where
  issue : Issue
  err : Option CITErr
  fileCreated : Bool
  fileOnDisk : Bool
  apiCall : Option (Bytes × Bytes)
deriving Repr, DecidableEq

/-- Failure exit before the temp file exists. -/
def citFail0 (e : CITErr) : CITResult :=
  { issue := emptyIssue, err := some e, fileCreated := false, fileOnDisk := false, apiCall := none }

/-- Failure exit after the temp file exists and before the API call, in the
variant without the deferred removal: the file stays on disk. -/
def citFail (e : CITErr) : CITResult :=
  { issue := emptyIssue, err := some e, fileCreated := true, fileOnDisk := true, apiCall := none }

/-- Embedding of `createIssueFromTemplate` from the unnamed file (lines
194-249).  The pre-populated buffer is two newline bytes followed by the
template content; the edited file must differ from it byte-for-byte; the
content is split once on the first newline into title and description; the
draft file is removed only after the creation call succeeds, and the error of
that removal is returned to the caller alongside the created issue. -/
def createIssueFromTemplate (env : CITEnv) (t : issueTemplate) : CITResult :=
  if env.tempFileOk = false then citFail0 CITErr.tempFile
  else
    let buf : Bytes := 10 :: 10 :: t.Content
    if env.writeOk = false then citFail CITErr.prepopulate
    else if env.syncOk = false then citFail CITErr.syncFailed
    else
      match getEditor env.editorEnv with
      | Except.error _ => citFail CITErr.getEditorFailed
      | Except.ok _ =>
        if env.runOk = false then citFail CITErr.runEditorFailed
        else
          match env.readResult with
          | none => citFail CITErr.readFailed
          | some issueContent =>
            if issueContent = buf then citFail CITErr.contentUnchanged
            else
              let issueSplit := splitN2 issueContent
              if issueSplit.length = 0 then citFail CITErr.emptyContent
              else if (issueSplit.headD []).length = 0 then citFail CITErr.emptyTitle
              else
                let title := issueSplit.headD []
                let desc := if issueSplit.length = 1 then [] else issueSplit.getD 1 []
                match env.createResult with
                | none =>
                  { issue := emptyIssue, err := some CITErr.createFailed,
                    fileCreated := true, fileOnDisk := true, apiCall := some (title, desc) }
                | some issue =>
                  if env.removeOk then
                    { issue := issue, err := none,
                      fileCreated := true, fileOnDisk := false, apiCall := some (title, desc) }
                  else
                    { issue := issue, err := some CITErr.removeFailed,
                      fileCreated := true, fileOnDisk := true, apiCall := some (title, desc) }

/-- Failure exit of the main.go variant after the temp file exists: the
deferred `os.Remove` runs on every exit, so the file is gone whenever that
removal succeeds. -/
def citFailDefer (removeOk : Bool) (e : CITErr) : CITResult :=
  { issue := emptyIssue, err := some e, fileCreated := true, fileOnDisk := !removeOk, apiCall := none }

/-- Embedding of `createIssueFromTemplate` from main.go (lines 190-245): the
same pipeline but with `defer os.Remove(file.Name())` right after the temp
file is created, so the draft is removed on every exit path, success or
failure, and the removal error is discarded. -/
def createIssueFromTemplateMainGo (env : CITEnv) (t : issueTemplate) : CITResult :=
  if env.tempFileOk = false then citFail0 CITErr.tempFile
  else
    let buf : Bytes := 10 :: 10 :: t.Content
    if env.writeOk = false then citFailDefer env.removeOk CITErr.prepopulate
    else if env.syncOk = false then citFailDefer env.removeOk CITErr.syncFailed
    else
      match getEditor env.editorEnv with
      | Except.error _ => citFailDefer env.removeOk CITErr.getEditorFailed
      | Except.ok _ =>
        if env.runOk = false then citFailDefer env.removeOk CITErr.runEditorFailed
        else
          match env.readResult with
          | none => citFailDefer env.removeOk CITErr.readFailed
          | some issueContent =>
            if issueContent = buf then citFailDefer env.removeOk CITErr.contentUnchanged
            else
              let issueSplit := splitN2 issueContent
              if issueSplit.length = 0 then citFailDefer env.removeOk CITErr.emptyContent
              else if (issueSplit.headD []).length = 0 then citFailDefer env.removeOk CITErr.emptyTitle
              else
                let title := issueSplit.headD []
                let desc := if issueSplit.length = 1 then [] else issueSplit.getD 1 []
                match env.createResult with
                | none =>
                  { issue := emptyIssue, err := some CITErr.createFailed,
                    fileCreated := true, fileOnDisk := !env.removeOk, apiCall := some (title, desc) }
                | some issue =>
                  { issue := issue, err := none,
                    fileCreated := true, fileOnDisk := !env.removeOk, apiCall := some (title, desc) }

/-- Embedding of main (unnamed file lines 334-337): a non-nil error from
`createIssueFromTemplate` is fatal (`log.Fatalf`), whatever the issue value. -/
def mainAbortsOnCreateError (r : CITResult) : Bool := r.err.isSome

/-- Error identities of template aggregation, one per `return` carrying a
non-nil error. -/
inductive TemplateErr where
  | homeDirFailed
  | mkdirFailed
  | readFileFailed (name : String)
  | listTreeFailed
  | getFileFailed (path : String)
  | decodeFailed (path : String)
deriving Repr, DecidableEq

/-- Result of one `GetFile` API call: the `FileName` field of the response and
the outcome of `base64.StdEncoding.DecodeString` on its `Content` field
(`none` = decode error). -/
structure RemoteFile where
  fileName : String
  decoded : Option Bytes
deriving Repr, DecidableEq

/-- Outcomes of the external effects consulted during template aggregation:
`homedir.Dir` (`none` = error), `os.MkdirAll` on the local template directory,
`ioutil.ReadDir` on that directory (`none` = error; the file names are in
enumeration order), `ioutil.ReadFile` per file name (`none` = read error), the
`ListTree` API call on `.gitlab/issue_templates` (`none` = error; node paths
in enumeration order), and the `GetFile` API call per node path (`none` =
fetch error). -/
structure TemplateEnv where
  homeDir : Option String
  mkdirOk : Bool
  readDirResult : Option (List String)
  readFileResult : String → Option Bytes
  listTreeResult : Option (List String)
  getFileResult : String → Option RemoteFile

/-- Loop body of `getLocalIssueTemplates` (unnamed file lines 110-122): skip
names not ending in ".md", read each remaining file (a read error aborts), and
name the template `<file name without ".md"> [local]`. -/
def localLoop (env : TemplateEnv) : List String → Except TemplateErr (List issueTemplate)
  | [] => Except.ok []
  | f :: rest =>
    if hasSuffix f ".md" = false then localLoop env rest
    else
      match env.readFileResult f with
      | none => Except.error (TemplateErr.readFileFailed f)
      | some b =>
        (localLoop env rest).map
          (fun ts => { Name := trimSuffix f ".md" ++ " [local]", Content := b } :: ts)

/-- Embedding of `getLocalIssueTemplates` (unnamed file lines 98-124): resolve
the home directory, create `~/.config/gitlab/issue_templates`, list it and
read every ".md" file.  The error of `ioutil.ReadDir` is not checked by the
source: on a listing failure the file slice is nil and the loop runs over
nothing, so the function returns an empty list and a nil error. -/
def getLocalIssueTemplates (env : TemplateEnv) : Except TemplateErr (List issueTemplate) :=
  match env.homeDir with
  | none => Except.error TemplateErr.homeDirFailed
  | some _ =>
    if env.mkdirOk = false then Except.error TemplateErr.mkdirFailed
    else
      localLoop env (env.readDirResult.getD [])

/-- Loop body of `getIssueTemplates` over the remote tree nodes (unnamed file
lines 148-165): skip paths not ending in ".md", fetch each remaining file, and
base64-decode its content; a fetch or decode error aborts.  The template is
named after the `FileName` field of the response, with ".md" stripped. -/
def remoteLoop (env : TemplateEnv) : List String → Except TemplateErr (List issueTemplate)
  | [] => Except.ok []
  | p :: rest =>
    if hasSuffix p ".md" = false then remoteLoop env rest
    else
      match env.getFileResult p with
      | none => Except.error (TemplateErr.getFileFailed p)
      | some file =>
        match file.decoded with
        | none => Except.error (TemplateErr.decodeFailed p)
        | some content =>
          (remoteLoop env rest).map
            (fun ts => { Name := trimSuffix file.fileName ".md", Content := content } :: ts)

/-- The synthetic blank template heading the merged list. -/
def blankTemplate : issueTemplate := { Name := "BLANK", Content := [] }

/-- Embedding of `getIssueTemplates` (unnamed file lines 126-167): the blank
template, then the local templates (a failure there aborts), then the remote
templates listed under `.gitlab/issue_templates` at the default branch (a
list, fetch or decode failure aborts). -/
def getIssueTemplates (env : TemplateEnv) : Except TemplateErr (List issueTemplate) :=
  match getLocalIssueTemplates env with
  | Except.error e => Except.error e
  | Except.ok locals =>
    match env.listTreeResult with
    | none => Except.error TemplateErr.listTreeFailed
    | some nodes =>
      (remoteLoop env nodes).map (fun remotes => blankTemplate :: locals ++ remotes)

/-- Decidable test that the `GetFile` call for `p` both succeeds and decodes. -/
def fetchOk (env : TemplateEnv) (p : String) : Bool :=
  match env.getFileResult p with
  | none => false
  | some file => file.decoded.isSome

/-- Default used to read a `RemoteFile` out of an `Option` known to be `some`. -/
def defaultRemoteFile : RemoteFile := { fileName := "", decoded := none }

/-- The local templates the merged list is expected to contain when every read
succeeds: the ".md" entries of the directory listing, in order, named with the
" [local]" marker. -/
def expectedLocals (env : TemplateEnv) (fs : List String) : List issueTemplate :=
  (fs.filter (fun f => hasSuffix f ".md")).map
    (fun f => { Name := trimSuffix f ".md" ++ " [local]",
                Content := (env.readFileResult f).getD [] })

/-- The remote templates the merged list is expected to contain when every
fetch and decode succeeds: the ".md" node paths, in order, each named after
the fetched `FileName` with ".md" stripped. -/
def expectedRemotes (env : TemplateEnv) (nodes : List String) : List issueTemplate :=
  (nodes.filter (fun p => hasSuffix p ".md")).map
    (fun p =>
      { Name := trimSuffix ((env.getFileResult p).getD defaultRemoteFile).fileName ".md",
        Content := ((env.getFileResult p).getD defaultRemoteFile).decoded.getD [] })

/-- Result of the post-creation selection fragments of main: either a value,
or the panic a Go out-of-range index raises. -/
inductive SelOutcome (α : Type) where
  | value (a : α)
  | panicked
deriving Repr, DecidableEq

/-- Embedding of main lines 339-348 (unnamed file): `selectedMilestone` starts
at the sentinel; when any milestone exists the fuzzy finder runs and its error
is discarded (`milestoneIdx, _ :=`), so the returned index is used whether or
not the user cancelled; an out-of-range index would panic. -/
def selectMilestone (milestones : List issueMilestone) (findIdx : Int) (cancelled : Bool) :
    SelOutcome issueMilestone :=
  if milestones.length = 0 then SelOutcome.value noMilestone
  else
    let _ := cancelled
    if 0 ≤ findIdx ∧ findIdx.toNat < milestones.length then
      SelOutcome.value (milestones.getD findIdx.toNat noMilestone)
    else SelOutcome.panicked

/-- Embedding of main lines 349-364 (unnamed file): `selectedLabels` starts at
the sentinel; when any label exists the multi fuzzy finder runs, a non-nil
error (cancellation) resets the selection to the sentinel, and the returned
indices are then appended; an out-of-range index would panic. -/
def selectLabels (labels : List issueLabel) (findIdxs : List Int) (cancelled : Bool) :
    SelOutcome (List issueLabel) :=
  if labels.length = 0 then SelOutcome.value noLabels
  else
    let init := if cancelled then noLabels else []
    if findIdxs.all (fun i => decide (0 ≤ i) && decide (i.toNat < labels.length)) then
      SelOutcome.value (init ++ findIdxs.map (fun i => labels.getD i.toNat
        { ID := 0, Name := "", Description := "" }))
    else SelOutcome.panicked

/-- The parts of `gitlab.UpdateIssueOptions` the program sets: the labels to
add, and the milestone id when one is set. -/
structure UpdateIssueOptions where
  AddLabels : List String
  MilestoneID : Option Int
deriving Repr, DecidableEq

/-- Embedding of `setIssueLabelsMilestones` (unnamed file lines 251-264),
reported as the options record handed to the single `UpdateIssue` call: label
names of the labels whose id is not 0, and the milestone id only when it is
not 0. -/
def setIssueLabelsMilestones (labels : List issueLabel) (milestone : issueMilestone) :
    UpdateIssueOptions :=
  { AddLabels := (labels.filter (fun l => l.ID ≠ 0)).map issueLabel.Name,
    MilestoneID := if milestone.ID ≠ 0 then some milestone.ID else none }

theorem splitN2Go_ne_nil : ∀ (s acc : Bytes), splitN2Go acc s ≠ []
  | [], acc => by simp [splitN2Go]
  | c :: rest, acc => by
    by_cases h : c = 10
    · simp [splitN2Go, h]
    · simpa [splitN2Go, h] using splitN2Go_ne_nil rest (c :: acc)

theorem splitN2Go_no_newline :
    ∀ (s acc : Bytes), (∀ c ∈ s, c ≠ 10) → splitN2Go acc s = [acc.reverse ++ s]
  | [], acc, _ => by simp [splitN2Go]
  | c :: rest, acc, h => by
    have hc : c ≠ 10 := h c (List.mem_cons_self c rest)
    rw [splitN2Go, if_neg hc,
      splitN2Go_no_newline rest (c :: acc) (fun x hx => h x (List.mem_cons_of_mem c hx))]
    simp

theorem splitN2Go_first_newline :
    ∀ (a : Bytes) (acc b : Bytes), (∀ c ∈ a, c ≠ 10) →
      splitN2Go acc (a ++ 10 :: b) = [acc.reverse ++ a, b]
  | [], acc, b, _ => by simp [splitN2Go]
  | c :: rest, acc, b, h => by
    have hc : c ≠ 10 := h c (List.mem_cons_self c rest)
    rw [List.cons_append, splitN2Go, if_neg hc,
      splitN2Go_first_newline rest (c :: acc) b (fun x hx => h x (List.mem_cons_of_mem c hx))]
    simp

theorem splitN2_ne_nil (s : Bytes) : splitN2 s ≠ [] := splitN2Go_ne_nil s []

theorem splitN2_no_newline (s : Bytes) (h : ∀ c ∈ s, c ≠ 10) : splitN2 s = [s] := by
  simpa [splitN2] using splitN2Go_no_newline s [] h

theorem splitN2_first_newline (a b : Bytes) (h : ∀ c ∈ a, c ≠ 10) :
    splitN2 (a ++ 10 :: b) = [a, b] := by
  simpa [splitN2] using splitN2Go_first_newline a [] b h

/-- C9: `getEditor` resolves the editor by the precedence GIT_EDITOR, then the
git global `core.editor` option, then VISUAL, then EDITOR, then the literal
"vi": with all four set it returns GIT_EDITOR, and removing each in turn falls
through to the next. -/
theorem getEditor_precedence (env : EditorEnv) :
    (env.gitEditor ≠ "" → getEditor env = Except.ok env.gitEditor) ∧
    (∀ e, env.gitEditor = "" → env.configResult = some (some e) →
      getEditor env = Except.ok e) ∧
    (env.gitEditor = "" → env.configResult = some none → env.visual ≠ "" →
      getEditor env = Except.ok env.visual) ∧
    (env.gitEditor = "" → env.configResult = some none → env.visual = "" →
      env.editorVar ≠ "" → getEditor env = Except.ok env.editorVar) ∧
    (env.gitEditor = "" → env.configResult = some none → env.visual = "" →
      env.editorVar = "" → getEditor env = Except.ok "vi") := by
  refine ⟨?_, ?_, ?_, ?_, ?_⟩ <;> intros <;> simp_all [getEditor]

theorem getEditor_precedence_witness :
    getEditor { gitEditor := "ge", configResult := some (some "ce"), visual := "vis",
                editorVar := "ed" } = Except.ok "ge" ∧
    getEditor { gitEditor := "", configResult := some (some "ce"), visual := "vis",
                editorVar := "ed" } = Except.ok "ce" ∧
    getEditor { gitEditor := "", configResult := some none, visual := "vis",
                editorVar := "ed" } = Except.ok "vis" ∧
    getEditor { gitEditor := "", configResult := some none, visual := "",
                editorVar := "ed" } = Except.ok "ed" ∧
    getEditor { gitEditor := "", configResult := some none, visual := "",
                editorVar := "" } = Except.ok "vi" := by
  refine ⟨?_, ?_, ?_, ?_, ?_⟩
  · exact (getEditor_precedence _).1 (by decide)
  · exact (getEditor_precedence _).2.1 "ce" rfl rfl
  · exact (getEditor_precedence _).2.2.1 rfl rfl (by decide)
  · exact (getEditor_precedence _).2.2.2.1 rfl rfl rfl (by decide)
  · exact (getEditor_precedence _).2.2.2.2 rfl rfl rfl rfl

/-- C4: `setIssueLabelsMilestones` excludes labels with id 0 from the
labels-to-add list (a name is in the list exactly when some label of the input
carries it with a non-zero id), includes a milestone id exactly when the
milestone id is non-zero, and with the two sentinels sends an empty
labels-to-add list and no milestone id. -/
theorem setIssueLabelsMilestones_spec (labels : List issueLabel) (m : issueMilestone) :
    (∀ s, s ∈ (setIssueLabelsMilestones labels m).AddLabels ↔
      ∃ l, l ∈ labels ∧ l.ID ≠ 0 ∧ l.Name = s) ∧
    ((setIssueLabelsMilestones labels m).MilestoneID =
      if m.ID ≠ 0 then some m.ID else none) ∧
    setIssueLabelsMilestones noLabels noMilestone =
      { AddLabels := [], MilestoneID := none } := by
  refine ⟨?_, rfl, rfl⟩
  intro s
  simp only [setIssueLabelsMilestones, List.mem_map, List.mem_filter, decide_eq_true_eq]
  constructor
  · rintro ⟨l, ⟨hl, hid⟩, hn⟩
    exact ⟨l, hl, hid, hn⟩
  · rintro ⟨l, hl, hid, hn⟩
    exact ⟨l, ⟨hl, hid⟩, hn⟩

theorem setIssueLabelsMilestones_spec_witness :
    ("bug" ∈ (setIssueLabelsMilestones
      [{ ID := 0, Name := "zero", Description := "z" },
       { ID := 3, Name := "bug", Description := "b" }]
      { ID := 7, Name := "m" }).AddLabels) ∧
    (setIssueLabelsMilestones
      [{ ID := 0, Name := "zero", Description := "z" },
       { ID := 3, Name := "bug", Description := "b" }]
      { ID := 7, Name := "m" }).MilestoneID = some 7 ∧
    setIssueLabelsMilestones noLabels noMilestone =
      { AddLabels := [], MilestoneID := none } := by
  have h := setIssueLabelsMilestones_spec
    [{ ID := 0, Name := "zero", Description := "z" },
     { ID := 3, Name := "bug", Description := "b" }]
    { ID := 7, Name := "m" }
  refine ⟨(h.1 "bug").mpr ⟨{ ID := 3, Name := "bug", Description := "b" }, by simp, by decide, rfl⟩,
    ?_, h.2.2⟩
  rw [h.2.1]
  decide

/-- Environment used by several witnesses: every effect succeeds, the editor
is taken from GIT_EDITOR, the edited file reads back as the single byte 65
("A"), the creation call returns issue 4, and the removal succeeds. -/
def envAllOk : CITEnv :=
  { tempFileOk := true, writeOk := true, syncOk := true,
    editorEnv := { gitEditor := "vi", configResult := none, visual := "", editorVar := "" },
    runOk := true, readResult := some [65],
    createResult := some { IID := 4, WebURL := "https://x/i/4" }, removeOk := true }

/-- C7: whenever the bytes read back from the draft file are byte-for-byte the
bytes written (two leading newlines followed by the template content, for any
template content including empty), `createIssueFromTemplate` fails with the
content-unchanged error and the issue-creation API call is not made. -/
theorem createIssue_content_unchanged (env : CITEnv) (t : issueTemplate)
    (h1 : env.tempFileOk = true) (h2 : env.writeOk = true) (h3 : env.syncOk = true)
    (h4 : ∃ e, getEditor env.editorEnv = Except.ok e) (h5 : env.runOk = true)
    (h6 : env.readResult = some (10 :: 10 :: t.Content)) :
    (createIssueFromTemplate env t).err = some CITErr.contentUnchanged ∧
    (createIssueFromTemplate env t).apiCall = none := by
  obtain ⟨e, he⟩ := h4
  simp [createIssueFromTemplate, h1, h2, h3, he, h5, h6, citFail]

theorem createIssue_content_unchanged_witness :
    (createIssueFromTemplate { envAllOk with readResult := some [10, 10, 104] }
      { Name := "t", Content := [104] }).err = some CITErr.contentUnchanged ∧
    (createIssueFromTemplate { envAllOk with readResult := some [10, 10, 104] }
      { Name := "t", Content := [104] }).apiCall = none :=
  createIssue_content_unchanged _ _ rfl rfl rfl ⟨"vi", rfl⟩ rfl rfl

/-- C8: whenever the edited content differs from the pre-populated bytes but
its first line is empty (the content is empty or starts with a newline),
`createIssueFromTemplate` fails with the empty-title error and the
issue-creation API call is not made. -/
theorem createIssue_empty_title (env : CITEnv) (t : issueTemplate) (c : Bytes)
    (h1 : env.tempFileOk = true) (h2 : env.writeOk = true) (h3 : env.syncOk = true)
    (h4 : ∃ e, getEditor env.editorEnv = Except.ok e) (h5 : env.runOk = true)
    (h6 : env.readResult = some c) (h7 : c ≠ 10 :: 10 :: t.Content)
    (h8 : c = [] ∨ ∃ rest, c = 10 :: rest) :
    (createIssueFromTemplate env t).err = some CITErr.emptyTitle ∧
    (createIssueFromTemplate env t).apiCall = none := by
  obtain ⟨e, he⟩ := h4
  rcases h8 with rfl | ⟨rest, rfl⟩ <;>
    simp [createIssueFromTemplate, h1, h2, h3, he, h5, h6, h7, splitN2, splitN2Go, citFail]

theorem createIssue_empty_title_witness :
    (createIssueFromTemplate { envAllOk with readResult := some [10, 65] }
      { Name := "t", Content := [66] }).err = some CITErr.emptyTitle ∧
    (createIssueFromTemplate { envAllOk with readResult := some [10, 65] }
      { Name := "t", Content := [66] }).apiCall = none :=
  createIssue_empty_title _ _ [10, 65] rfl rfl rfl ⟨"vi", rfl⟩ rfl rfl
    (by decide) (Or.inr ⟨[65], rfl⟩)

/-- C5: accepted edited content is split on the first newline only: the bytes
before the first newline become the title and everything after it the
description, and a single line with no newline yields an empty description. -/
theorem createIssue_split_semantics (env : CITEnv) (t : issueTemplate)
    (h1 : env.tempFileOk = true) (h2 : env.writeOk = true) (h3 : env.syncOk = true)
    (h4 : ∃ e, getEditor env.editorEnv = Except.ok e) (h5 : env.runOk = true) :
    (∀ a b, (∀ c ∈ a, c ≠ 10) → a ≠ [] →
      env.readResult = some (a ++ 10 :: b) → a ++ 10 :: b ≠ 10 :: 10 :: t.Content →
      (createIssueFromTemplate env t).apiCall = some (a, b)) ∧
    (∀ a, (∀ c ∈ a, c ≠ 10) → a ≠ [] →
      env.readResult = some a → a ≠ 10 :: 10 :: t.Content →
      (createIssueFromTemplate env t).apiCall = some (a, [])) := by
  obtain ⟨e, he⟩ := h4
  constructor
  · intro a b hno hne hread hdiff
    have hlen : a.length ≠ 0 := fun hz => hne (List.length_eq_zero.mp hz)
    cases hc : env.createResult <;> cases hr : env.removeOk <;>
      simp [createIssueFromTemplate, h1, h2, h3, he, h5, hread, hdiff,
        splitN2_first_newline a b hno, hlen, hc, hr]
  · intro a hno hne hread hdiff
    have hlen : a.length ≠ 0 := fun hz => hne (List.length_eq_zero.mp hz)
    cases hc : env.createResult <;> cases hr : env.removeOk <;>
      simp [createIssueFromTemplate, h1, h2, h3, he, h5, hread, hdiff,
        splitN2_no_newline a hno, hlen, hc, hr]

theorem createIssue_split_semantics_witness :
    (createIssueFromTemplate { envAllOk with readResult := some [84, 10, 10, 66] }
      { Name := "t", Content := [] }).apiCall = some ([84], [10, 66]) :=
  (createIssue_split_semantics { envAllOk with readResult := some [84, 10, 10, 66] }
      { Name := "t", Content := [] } rfl rfl rfl ⟨"vi", rfl⟩ rfl).1
    [84] [10, 66] (by decide) (by decide) rfl (by decide)

/-- C10: when the run reaches the creation call, the call succeeds, and the
subsequent removal of the draft file fails, `createIssueFromTemplate` returns
the created issue together with a non-nil error, and main treats that error as
fatal. -/
theorem createIssue_remove_failure (env : CITEnv) (t : issueTemplate) (i : Issue)
    (h1 : env.tempFileOk = true) (h2 : env.writeOk = true) (h3 : env.syncOk = true)
    (h4 : ∃ e, getEditor env.editorEnv = Except.ok e) (h5 : env.runOk = true)
    (h6 : ∃ c, env.readResult = some c ∧ c ≠ 10 :: 10 :: t.Content ∧
      (splitN2 c).headD [] ≠ [])
    (h7 : env.createResult = some i) (h8 : env.removeOk = false) :
    (createIssueFromTemplate env t).issue = i ∧
    (createIssueFromTemplate env t).err = some CITErr.removeFailed ∧
    mainAbortsOnCreateError (createIssueFromTemplate env t) = true := by
  obtain ⟨e, he⟩ := h4
  obtain ⟨c, hread, hdiff, htitle⟩ := h6
  have hz : ¬((splitN2 c).length = 0) :=
    fun hz => splitN2_ne_nil c (List.length_eq_zero.mp hz)
  have ht : (splitN2 c).head?.getD [] ≠ [] := by
    simpa [List.headD_eq_head?] using htitle
  simp [createIssueFromTemplate, mainAbortsOnCreateError,
    h1, h2, h3, he, h5, hread, hdiff, hz, ht, h7, h8]

theorem createIssue_remove_failure_witness :
    (createIssueFromTemplate { envAllOk with removeOk := false }
      { Name := "t", Content := [] }).issue = { IID := 4, WebURL := "https://x/i/4" } ∧
    (createIssueFromTemplate { envAllOk with removeOk := false }
      { Name := "t", Content := [] }).err = some CITErr.removeFailed ∧
    mainAbortsOnCreateError (createIssueFromTemplate { envAllOk with removeOk := false }
      { Name := "t", Content := [] }) = true :=
  createIssue_remove_failure { envAllOk with removeOk := false }
    { Name := "t", Content := [] } { IID := 4, WebURL := "https://x/i/4" }
    rfl rfl rfl ⟨"vi", rfl⟩ rfl ⟨[65], rfl, by decide, by decide⟩ rfl rfl

/-- C1 counterexample: in the main.go variant of `createIssueFromTemplate`,
the deferred removal deletes the draft file even on a failure path: with the
editor run failing (and the removal succeeding), the run fails after the file
was created, yet the file is no longer on disk. -/
theorem mainGo_removes_draft_on_failure :
    (createIssueFromTemplateMainGo
      { envAllOk with runOk := false, readResult := none, createResult := none }
      { Name := "t", Content := [] }).fileCreated = true ∧
    (createIssueFromTemplateMainGo
      { envAllOk with runOk := false, readResult := none, createResult := none }
      { Name := "t", Content := [] }).err = some CITErr.runEditorFailed ∧
    (createIssueFromTemplateMainGo
      { envAllOk with runOk := false, readResult := none, createResult := none }
      { Name := "t", Content := [] }).fileOnDisk = false :=
  ⟨rfl, rfl, rfl⟩

/-- C1 (amended): in the unnamed-file variant of `createIssueFromTemplate`,
once the draft file exists every failing run leaves it on disk, and the run
removes it exactly on the single success path, which requires the
issue-creation call to have succeeded. -/
theorem createIssue_draft_file_lifecycle (env : CITEnv) (t : issueTemplate) :
    ((createIssueFromTemplate env t).fileCreated = true →
      (createIssueFromTemplate env t).err ≠ none →
      (createIssueFromTemplate env t).fileOnDisk = true) ∧
    ((createIssueFromTemplate env t).err = none →
      (createIssueFromTemplate env t).fileOnDisk = false ∧
      env.createResult.isSome = true) := by
  rcases env with ⟨tf, wo, so, ee, ro, rr, cr, rm⟩
  cases tf with
  | false => simp [createIssueFromTemplate, citFail0]
  | true =>
  cases wo with
  | false => simp [createIssueFromTemplate, citFail]
  | true =>
  cases so with
  | false => simp [createIssueFromTemplate, citFail]
  | true =>
  rcases he : getEditor ee with u | e
  · simp [createIssueFromTemplate, he, citFail]
  cases ro with
  | false => simp [createIssueFromTemplate, he, citFail]
  | true =>
  rcases rr with _ | c
  · simp [createIssueFromTemplate, he, citFail]
  by_cases hc : c = 10 :: 10 :: t.Content
  · simp [createIssueFromTemplate, he, hc, citFail]
  have hz : ¬((splitN2 c).length = 0) :=
    fun hz0 => splitN2_ne_nil c (List.length_eq_zero.mp hz0)
  by_cases ht : (splitN2 c).head?.getD [] = []
  · simp [createIssueFromTemplate, he, hc, hz, ht, citFail]
  rcases cr with _ | i
  · simp [createIssueFromTemplate, he, hc, hz, ht, citFail]
  cases rm with
  | false => simp [createIssueFromTemplate, he, hc, hz, ht, citFail]
  | true => simp [createIssueFromTemplate, he, hc, hz, ht, citFail]

theorem createIssue_draft_file_lifecycle_witness :
    (createIssueFromTemplate envAllOk { Name := "t", Content := [] }).fileOnDisk = false ∧
    envAllOk.createResult.isSome = true :=
  (createIssue_draft_file_lifecycle envAllOk { Name := "t", Content := [] }).2 rfl

theorem localLoop_error_of_failure :
    ∀ (env : TemplateEnv) (fs : List String) (f : String),
      f ∈ fs → hasSuffix f ".md" = true → env.readFileResult f = none →
      ∃ e, localLoop env fs = Except.error e
  | _, [], f, hmem, _, _ => absurd hmem (List.not_mem_nil f)
  | env, g :: rest, f, hmem, hmd, hfail => by
    by_cases hg : hasSuffix g ".md" = true
    · rcases hr : env.readFileResult g with _ | b
      · exact ⟨TemplateErr.readFileFailed g, by simp [localLoop, hg, hr]⟩
      · have hfg : f ≠ g := by
          intro h0
          rw [h0, hr] at hfail
          cases hfail
        have hmem2 : f ∈ rest := by
          rcases List.mem_cons.mp hmem with h0 | h0
          · exact absurd h0 hfg
          · exact h0
        obtain ⟨e, he⟩ := localLoop_error_of_failure env rest f hmem2 hmd hfail
        exact ⟨e, by simp [localLoop, hg, hr, he, Except.map]⟩
    · have hfg : f ≠ g := by
        intro h0
        rw [h0] at hmd
        exact hg hmd
      have hmem2 : f ∈ rest := by
        rcases List.mem_cons.mp hmem with h0 | h0
        · exact absurd h0 hfg
        · exact h0
      obtain ⟨e, he⟩ := localLoop_error_of_failure env rest f hmem2 hmd hfail
      exact ⟨e, by simp [localLoop, hg, he]⟩

theorem remoteLoop_error_of_failure :
    ∀ (env : TemplateEnv) (nodes : List String) (p : String),
      p ∈ nodes → hasSuffix p ".md" = true → fetchOk env p = false →
      ∃ e, remoteLoop env nodes = Except.error e
  | _, [], p, hmem, _, _ => absurd hmem (List.not_mem_nil p)
  | env, q :: rest, p, hmem, hmd, hfail => by
    by_cases hq : hasSuffix q ".md" = true
    · rcases hr : env.getFileResult q with _ | file
      · exact ⟨TemplateErr.getFileFailed q, by simp [remoteLoop, hq, hr]⟩
      · rcases hd : file.decoded with _ | content
        · exact ⟨TemplateErr.decodeFailed q, by simp [remoteLoop, hq, hr, hd]⟩
        · have hfq : p ≠ q := by
            intro h0
            rw [h0] at hfail
            simp [fetchOk, hr, hd] at hfail
          have hmem2 : p ∈ rest := by
            rcases List.mem_cons.mp hmem with h0 | h0
            · exact absurd h0 hfq
            · exact h0
          obtain ⟨e, he⟩ := remoteLoop_error_of_failure env rest p hmem2 hmd hfail
          exact ⟨e, by simp [remoteLoop, hq, hr, hd, he, Except.map]⟩
    · have hfq : p ≠ q := by
        intro h0
        rw [h0] at hmd
        exact hq hmd
      have hmem2 : p ∈ rest := by
        rcases List.mem_cons.mp hmem with h0 | h0
        · exact absurd h0 hfq
        · exact h0
      obtain ⟨e, he⟩ := remoteLoop_error_of_failure env rest p hmem2 hmd hfail
      exact ⟨e, by simp [remoteLoop, hq, he]⟩

theorem localLoop_ok_of_all :
    ∀ (env : TemplateEnv) (fs : List String),
      (∀ f ∈ fs, hasSuffix f ".md" = true → (env.readFileResult f).isSome = true) →
      localLoop env fs = Except.ok (expectedLocals env fs)
  | _, [], _ => by simp [localLoop, expectedLocals]
  | env, g :: rest, h => by
    have hrest := localLoop_ok_of_all env rest
      (fun f hf hmd => h f (List.mem_cons_of_mem g hf) hmd)
    by_cases hg : hasSuffix g ".md" = true
    · rcases hr : env.readFileResult g with _ | b
      · have := h g (List.mem_cons_self g rest) hg
        rw [hr] at this
        cases this
      · simp [localLoop, hg, hr, hrest, expectedLocals, List.filter, Except.map]
    · simp [localLoop, hg, hrest, expectedLocals, List.filter]

theorem remoteLoop_ok_of_all :
    ∀ (env : TemplateEnv) (nodes : List String),
      (∀ p ∈ nodes, hasSuffix p ".md" = true → fetchOk env p = true) →
      remoteLoop env nodes = Except.ok (expectedRemotes env nodes)
  | _, [], _ => by simp [remoteLoop, expectedRemotes]
  | env, q :: rest, h => by
    have hrest := remoteLoop_ok_of_all env rest
      (fun p hp hmd => h p (List.mem_cons_of_mem q hp) hmd)
    by_cases hq : hasSuffix q ".md" = true
    · have hfetch := h q (List.mem_cons_self q rest) hq
      rcases hr : env.getFileResult q with _ | file
      · simp [fetchOk, hr] at hfetch
      · rcases hd : file.decoded with _ | content
        · simp [fetchOk, hr, hd] at hfetch
        · simp [remoteLoop, hq, hr, hd, hrest, expectedRemotes, List.filter, Except.map]
    · simp [remoteLoop, hq, hrest, expectedRemotes, List.filter]

/-- C2 (amended): every I/O or decode failure during template aggregation
aborts with an error — home-dir lookup, local directory creation, local file
read, remote tree list, remote file fetch, base64 decode — except the local
directory listing, whose error the source never checks: a listing failure
yields an empty local-template set and the aggregation still succeeds. -/
theorem getIssueTemplates_fail_closed (env : TemplateEnv) :
    (env.homeDir = none →
      getIssueTemplates env = Except.error TemplateErr.homeDirFailed) ∧
    (env.homeDir ≠ none → env.mkdirOk = false →
      getIssueTemplates env = Except.error TemplateErr.mkdirFailed) ∧
    (∀ fs f, env.readDirResult = some fs → f ∈ fs → hasSuffix f ".md" = true →
      env.readFileResult f = none → ∃ e, getIssueTemplates env = Except.error e) ∧
    (env.listTreeResult = none → ∃ e, getIssueTemplates env = Except.error e) ∧
    (∀ nodes p, env.listTreeResult = some nodes → p ∈ nodes →
      hasSuffix p ".md" = true → fetchOk env p = false →
      ∃ e, getIssueTemplates env = Except.error e) ∧
    (env.homeDir ≠ none → env.mkdirOk = true → env.readDirResult = none →
      (∀ nodes, env.listTreeResult = some nodes →
        (∀ p ∈ nodes, hasSuffix p ".md" = true → fetchOk env p = true) →
        getIssueTemplates env =
          Except.ok (blankTemplate :: expectedRemotes env nodes))) := by
  refine ⟨?_, ?_, ?_, ?_, ?_, ?_⟩
  · intro h
    simp [getIssueTemplates, getLocalIssueTemplates, h]
  · intro h1 h2
    rcases hh : env.homeDir with _ | d
    · exact absurd hh h1
    · simp [getIssueTemplates, getLocalIssueTemplates, hh, h2]
  · intro fs f hrd hmem hmd hfail
    rcases hh : env.homeDir with _ | d
    · exact ⟨TemplateErr.homeDirFailed, by simp [getIssueTemplates, getLocalIssueTemplates, hh]⟩
    · cases hmk : env.mkdirOk with
      | false =>
        exact ⟨TemplateErr.mkdirFailed,
          by simp [getIssueTemplates, getLocalIssueTemplates, hh, hmk]⟩
      | true =>
        obtain ⟨e, he⟩ := localLoop_error_of_failure env fs f hmem hmd hfail
        exact ⟨e, by simp [getIssueTemplates, getLocalIssueTemplates, hh, hmk, hrd, he]⟩
  · intro h
    rcases hglt : getLocalIssueTemplates env with e | locals
    · exact ⟨e, by simp [getIssueTemplates, hglt]⟩
    · exact ⟨TemplateErr.listTreeFailed, by simp [getIssueTemplates, hglt, h]⟩
  · intro nodes p hlt hmem hmd hfail
    rcases hglt : getLocalIssueTemplates env with e | locals
    · exact ⟨e, by simp [getIssueTemplates, hglt]⟩
    · obtain ⟨e, he⟩ := remoteLoop_error_of_failure env nodes p hmem hmd hfail
      exact ⟨e, by simp [getIssueTemplates, hglt, hlt, he, Except.map]⟩
  · intro h1 h2 h3 nodes hlt hfetch
    rcases hh : env.homeDir with _ | d
    · exact absurd hh h1
    · simp [getIssueTemplates, getLocalIssueTemplates, hh, h2, h3, hlt,
        localLoop, remoteLoop_ok_of_all env nodes hfetch, Except.map]

theorem getIssueTemplates_fail_closed_witness :
    getIssueTemplates
      { homeDir := none, mkdirOk := true, readDirResult := none,
        readFileResult := fun _ => none, listTreeResult := none,
        getFileResult := fun _ => none } = Except.error TemplateErr.homeDirFailed :=
  (getIssueTemplates_fail_closed _).1 rfl

/-- C2 counterexample: when `ioutil.ReadDir` on the local template directory
fails (every other effect succeeding, with no remote templates), the
aggregation does not return an error: it succeeds with just the blank
template, because the source never checks the listing error. -/
theorem getIssueTemplates_listing_failure_not_error :
    ({ homeDir := some "/home/u", mkdirOk := true, readDirResult := none,
       readFileResult := fun _ => none, listTreeResult := some [],
       getFileResult := fun _ => none } : TemplateEnv).readDirResult = none ∧
    getIssueTemplates
      { homeDir := some "/home/u", mkdirOk := true, readDirResult := none,
        readFileResult := fun _ => none, listTreeResult := some [],
        getFileResult := fun _ => none } = Except.ok [blankTemplate] :=
  ⟨rfl, rfl⟩

/-- C6: when every effect succeeds, the merged template list is the blank
template first, then the local ".md" templates named with the " [local]"
marker in directory enumeration order, then the remote ".md" templates named
without the extension in remote enumeration order, with non-".md" entries
skipped in both sources. -/
theorem getIssueTemplates_merged_order (env : TemplateEnv) (d : String)
    (fs nodes : List String)
    (h1 : env.homeDir = some d) (h2 : env.mkdirOk = true)
    (h3 : env.readDirResult = some fs)
    (h4 : ∀ f ∈ fs, hasSuffix f ".md" = true → (env.readFileResult f).isSome = true)
    (h5 : env.listTreeResult = some nodes)
    (h6 : ∀ p ∈ nodes, hasSuffix p ".md" = true → fetchOk env p = true) :
    getIssueTemplates env =
      Except.ok (blankTemplate :: expectedLocals env fs ++ expectedRemotes env nodes) := by
  simp [getIssueTemplates, getLocalIssueTemplates, h1, h2, h3, h5,
    localLoop_ok_of_all env fs h4, remoteLoop_ok_of_all env nodes h6, Except.map]

/-- Concrete aggregation environment for the C6 witness: two local ".md"
files plus one local non-".md" file, one remote ".md" node plus one remote
non-".md" node. -/
def c6Env : TemplateEnv :=
  { homeDir := some "/home/u", mkdirOk := true,
    readDirResult := some ["a.md", "b.md", "c.txt"],
    readFileResult := fun f =>
      if f = "a.md" then some [97] else if f = "b.md" then some [98] else none,
    listTreeResult := some [".gitlab/issue_templates/x.md", ".gitlab/issue_templates/y.txt"],
    getFileResult := fun p =>
      if p = ".gitlab/issue_templates/x.md" then
        some { fileName := "x.md", decoded := some [120] }
      else none }

theorem getIssueTemplates_merged_order_witness :
    getIssueTemplates c6Env = Except.ok
      [blankTemplate,
       { Name := "a [local]", Content := [97] },
       { Name := "b [local]", Content := [98] },
       { Name := "x", Content := [120] }] := by
  have h := getIssueTemplates_merged_order c6Env "/home/u"
    ["a.md", "b.md", "c.txt"]
    [".gitlab/issue_templates/x.md", ".gitlab/issue_templates/y.txt"]
    rfl rfl rfl (by decide) rfl (by decide)
  rw [h]
  rfl

/-- C3 counterexample: with one milestone present and the user cancelling the
milestone selector, the cancellation error is discarded and the index the
finder returned is used anyway: the selected milestone is the listed one, not
the no-milestone sentinel. -/
theorem selectMilestone_cancel_not_sentinel :
    selectMilestone [{ ID := 5, Name := "m" }] 0 true =
      SelOutcome.value { ID := 5, Name := "m" } ∧
    ({ ID := 5, Name := "m" } : issueMilestone) ≠ noMilestone :=
  ⟨rfl, by decide⟩

/-- C3 (amended): cancelling the label multi-selector (the finder returning no
indices) falls back to the no-label sentinel without aborting, as does an
empty label list; cancelling the milestone selector is ignored — the returned
index is used regardless of the cancellation, so the milestone at that index
(not the sentinel) is selected. -/
theorem selection_cancellation (labels : List issueLabel)
    (milestones : List issueMilestone) (i : Int) :
    (∀ idxs c, labels = [] → selectLabels labels idxs c = SelOutcome.value noLabels) ∧
    (labels ≠ [] → selectLabels labels [] true = SelOutcome.value noLabels) ∧
    (milestones ≠ [] → 0 ≤ i → i.toNat < milestones.length →
      selectMilestone milestones i true =
        SelOutcome.value (milestones.getD i.toNat noMilestone)) := by
  refine ⟨?_, ?_, ?_⟩
  · rintro idxs c rfl
    simp [selectLabels]
  · intro h
    have hlen : labels.length ≠ 0 := fun hz => h (List.length_eq_zero.mp hz)
    simp [selectLabels, hlen]
  · intro h hle hlt
    have hlen : milestones.length ≠ 0 := fun hz => h (List.length_eq_zero.mp hz)
    simp [selectMilestone, hlen, hle, hlt]

theorem selection_cancellation_witness :
    selectLabels [{ ID := 1, Name := "a", Description := "d" }] [] true =
      SelOutcome.value noLabels ∧
    selectMilestone [{ ID := 5, Name := "m" }, { ID := 6, Name := "n" }] 1 true =
      SelOutcome.value { ID := 6, Name := "n" } := by
  have h := selection_cancellation [{ ID := 1, Name := "a", Description := "d" }]
    [{ ID := 5, Name := "m" }, { ID := 6, Name := "n" }] 1
  exact ⟨h.2.1 (by decide), by simpa using h.2.2 (by decide) (by decide) (by decide)⟩

end GitlabIssue
